import Mathlib

/-!
Verification of the solar-dashboard telemetry pipeline (`src/app.py`).

Shallow embedding conventions:
* a pandas timestamp is an integer count of microseconds since the UTC epoch;
* a DataFrame is a `Frame`: the list of numeric column names, the list of
  non-numeric column names, and the rows; each row stores its timestamp and a
  sparse assignment of column name to optional value (a `none` models NaN);
* a float NaN that the app tests with `np.isfinite` is modelled as `none` in
  an `Option ℚ`; all finite float arithmetic is modelled in exact `ℚ`;
* the resampled DataFrame is an `RFrame` whose rows are `Bucket`s keyed by the
  left edge of their time interval.
-/

/-- Number of microseconds in one day. -/
def usDay : ℤ := 86400000000

/-- Number of microseconds in one minute. -/
def usMin : ℤ := 60000000

/-- One telemetry row after normalization: a UTC timestamp in microseconds,
the numeric cells and the non-numeric cells (`none` models a NaN cell). -/
structure Row where
  ts : ℤ
  num : String → Option ℚ
  cat : String → Option String

/-- One normalized DataFrame: which columns are numeric, which are
non-numeric, and the rows. -/
structure Frame where
  numCols : List String
  catCols : List String
  rows : List Row

/-- One resampled bucket: the left edge of its interval plus the aggregated
cells. -/
structure Bucket where
  start : ℤ
  num : String → Option ℚ
  cat : String → Option String

/-- The resampled DataFrame returned by `filter_and_resample`. -/
structure RFrame where
  numCols : List String
  catCols : List String
  buckets : List Bucket

/-- One raw row before timestamp coercion: `tsParse` is the result of
`pd.to_datetime(..., utc=True, errors="coerce")` on its `ts_utc` cell
(`none` models NaT). Site cells are already viewed as strings, mirroring the
`astype(str)` cast at app.py line 47. -/
structure RawRow where
  tsParse : Option ℤ
  num : String → Option ℚ
  cat : String → Option String

/-- One raw DataFrame as produced by `pd.read_csv` / `pd.read_sql_query`. -/
structure RawFrame where
  numCols : List String
  catCols : List String
  rows : List RawRow

/-- All column names of a raw DataFrame. -/
def rawCols (rf : RawFrame) : List String := rf.numCols ++ rf.catCols

/-- The `ValueError` raised at app.py line 39 when no `ts_utc` column is
found. -/
inductive LoadError where
  | schemaMissing
deriving DecidableEq

/-- Normalization performed by `load_all_data` (app.py lines 38-49) after the
raw table has been read: require a column named exactly `ts_utc`, coerce it
(rows whose timestamp fails to parse are dropped by
`dropna(subset=["ts_utc"])`), and keep every other cell unchanged. The
`ts_utc` column itself becomes the datetime column, so it is removed from the
value columns (it is consumed by `set_index` downstream). -/
def load_all_data (rf : RawFrame) : Except LoadError Frame :=
  if "ts_utc" ∈ rawCols rf then
    Except.ok
      { numCols := rf.numCols.erase "ts_utc"
        catCols := rf.catCols.erase "ts_utc"
        rows := rf.rows.filterMap (fun rr =>
          rr.tsParse.map (fun t => { ts := t, num := rr.num, cat := rr.cat })) }
  else Except.error LoadError.schemaMissing

/-- Which backend `load_all_data` reads from (app.py lines 27-36). -/
inductive SourceKind where
  | sqlite
  | csv
deriving DecidableEq

/-- Python `str.strip` whitespace set (ASCII part). -/
def isPySpace (c : Char) : Bool :=
  c == ' ' || c == '\t' || c == '\n' || c == '\r' || c == Char.ofNat 11 || c == Char.ofNat 12

/-- Python `str.strip` on a descriptor string. -/
def pyStrip (s : List Char) : List Char :=
  ((s.dropWhile isPySpace).reverse.dropWhile isPySpace).reverse

/-- Python `str.lower` on a descriptor string (ASCII part). -/
def pyLower (s : List Char) : List Char := s.map Char.toLower

/-- Python `str.endswith` on one suffix. -/
def endsWithL (s suf : List Char) : Bool :=
  s.drop (s.length - suf.length) == suf

/-- The suffix test at app.py line 27:
`source.lower().endswith((".db", ".sqlite", ".sqlite3"))` applied to the
stripped descriptor. -/
def source_is_db (s : List Char) : Bool :=
  let t := pyLower (pyStrip s)
  endsWithL t (String.toList ".db") || endsWithL t (String.toList ".sqlite") ||
    endsWithL t (String.toList ".sqlite3")

/-- The backend chosen by `load_all_data` for a descriptor string: the SQLite
`telemetry` table when the stripped, lowered descriptor ends with `.db`,
`.sqlite` or `.sqlite3`, and `pd.read_csv` otherwise (app.py lines 24-36). -/
def source_kind (s : List Char) : SourceKind :=
  if source_is_db s then SourceKind.sqlite else SourceKind.csv

/-- Insert one row into a list that is already sorted by timestamp. -/
def insertTs (r : Row) : List Row → List Row
  | [] => [r]
  | s :: t => if r.ts ≤ s.ts then r :: s :: t else s :: insertTs r t

/-- Stable sort by timestamp, modelling `df.sort_values("ts_utc")` at
app.py line 73. -/
def sortByTs : List Row → List Row
  | [] => []
  | r :: t => insertTs r (sortByTs t)

/-- Left edge of the resample interval containing instant `t`, for grid
origin `origin` and bucket width `w` microseconds. -/
def bucketOf (origin w t : ℤ) : ℤ := origin + w * ((t - origin) / w)

/-- Collapse adjacent duplicates of a list of bucket edges. -/
def dedupAdj : List ℤ → List ℤ
  | [] => []
  | [a] => [a]
  | a :: b :: t => if a = b then dedupAdj (b :: t) else a :: dedupAdj (b :: t)

/-- Mean of a list of present values; `none` models the NaN that pandas
yields for a mean over an empty set of values. -/
def meanOpt (vs : List ℚ) : Option ℚ :=
  if vs = [] then none else some (vs.sum / (vs.length : ℚ))

/-- Aggregation of one bucket (app.py lines 76-84): numeric columns by
`"mean"` of the present values, non-numeric columns by `"first"` present
value, and columns the frame does not have stay absent. -/
def aggBucket (numCols catCols : List String) (b : ℤ) (grp : List Row) : Bucket :=
  { start := b
    num := fun c => if c ∈ numCols then meanOpt (grp.filterMap (fun r => r.num c)) else none
    cat := fun c => if c ∈ catCols then (grp.filterMap (fun r => r.cat c)).head? else none }

/-- Test used by `dropna(how="all")` at app.py line 85: every cell of the
bucket row is missing. -/
def isEmptyBucket (numCols catCols : List String) (bk : Bucket) : Bool :=
  numCols.all (fun c => (bk.num c).isNone) && catCols.all (fun c => (bk.cat c).isNone)

/-- Resampling of a time-sorted row list (app.py lines 73-87):
`df.resample(f"{resample_min}min").agg(agg_cols).dropna(how="all")`, where
the pandas grid origin is midnight of the first index day (`start_day`). -/
def resampleSorted (numCols catCols : List String) (w : ℤ) : List Row → List Bucket
  | [] => []
  | r0 :: rest =>
    let origin := usDay * (r0.ts / usDay)
    let starts := dedupAdj ((r0 :: rest).map (fun r => bucketOf origin w r.ts))
    (starts.map (fun b =>
        aggBucket numCols catCols b
          ((r0 :: rest).filter (fun r => bucketOf origin w r.ts == b)))).filter
      (fun bk => !isEmptyBucket numCols catCols bk)

/-- The filtering half of `filter_and_resample` (app.py lines 62-68): keep
rows matching `site_id` when that column exists and the requested site is a
non-empty string, then keep rows with `start_dt <= ts_utc <= end_dt`. -/
def filterRows (f : Frame) (site : String) (s e : ℤ) : List Row :=
  let bySite :=
    if "site_id" ∈ f.catCols ∧ site ≠ "" then
      f.rows.filter (fun r => r.cat "site_id" == some site)
    else f.rows
  bySite.filter (fun r => decide (s ≤ r.ts) && decide (r.ts ≤ e))

/-- `filter_and_resample` (app.py lines 52-87). The early return on an empty
filtered frame coincides with resampling the empty row list. -/
def filter_and_resample (f : Frame) (site : String) (s e : ℤ) (resample_min : ℤ) : RFrame :=
  { numCols := f.numCols
    catCols := f.catCols
    buckets :=
      resampleSorted f.numCols f.catCols (usMin * resample_min)
        (sortByTs (filterRows f site s e)) }

/-- `start_dt` for a chosen start day (app.py line 159):
`datetime.combine(start_date, datetime.min.time())` in UTC, with the day
counted in days since the epoch. -/
def start_dt (d : ℤ) : ℤ := usDay * d

/-- `end_dt` for a chosen end day (app.py line 160):
`datetime.combine(end_date, datetime.max.time())` in UTC, i.e. the last
representable microsecond of the day. -/
def end_dt (d : ℤ) : ℤ := usDay * d + (usDay - 1)

/-- `dt_hours = resample_min / 60.0` (app.py line 172). -/
def dt_hours (resample_min : ℤ) : ℚ := (resample_min : ℚ) / 60

/-- `df.get(c, pd.Series(dtype=float)).fillna(0.0)` (app.py lines 174 and
176): the column as a list with NaN replaced by zero, or the empty series
when the column is absent. -/
def seriesFilled (g : RFrame) (c : String) : List ℚ :=
  if c ∈ g.numCols then g.buckets.map (fun b => (b.num c).getD 0) else []

/-- `df.get(c, pd.Series(dtype=float))` without fill (app.py line 175). -/
def seriesOpt (g : RFrame) (c : String) : List (Option ℚ) :=
  if c ∈ g.numCols then g.buckets.map (fun b => b.num c) else []

/-- `daily_energy_wh = float((dc_power * dt_hours).sum())` (app.py
line 179). -/
def daily_energy_wh (resample_min : ℤ) (g : RFrame) : ℚ :=
  ((seriesFilled g "dc_power").map (fun v => v * dt_hours resample_min)).sum

/-- Maximum of a series, as `Series.max` on a series without NaN. -/
def maxList : List ℚ → ℚ
  | [] => 0
  | a :: l => l.foldl max a

/-- `peak_power = float(dc_power.max()) if not dc_power.empty else 0.0`
(app.py line 182), on the zero-filled series. -/
def peak_power (g : RFrame) : ℚ :=
  let ser := seriesFilled g "dc_power"
  if ser = [] then 0 else maxList ser

/-- `avg_panel_temp = float(panel_temp_c.mean()) if not panel_temp_c.empty
else np.nan` (app.py line 185); `Series.mean` skips NaN and yields NaN when
no value is present. -/
def avg_panel_temp (g : RFrame) : Option ℚ :=
  let ser := seriesOpt g "panel_temp_c"
  if ser = [] then none else meanOpt (ser.filterMap id)

/-- `ref_energy_wh = float((irradiance * panel_area * module_eff *
dt_hours).sum())` (app.py line 188), on the zero-filled irradiance series. -/
def ref_energy_wh (resample_min : ℤ) (panel_area module_eff : ℚ) (g : RFrame) : ℚ :=
  ((seriesFilled g "irradiance_wm2").map
    (fun v => v * panel_area * module_eff * dt_hours resample_min)).sum

/-- `pr_tracker` (app.py lines 190-193): the quotient when the reference
energy is strictly positive and NaN (modelled `none`) otherwise. -/
def pr_tracker (resample_min : ℤ) (panel_area module_eff : ℚ) (g : RFrame) : Option ℚ :=
  if 0 < ref_energy_wh resample_min panel_area module_eff g then
    some (daily_energy_wh resample_min g / ref_energy_wh resample_min panel_area module_eff g)
  else none

/-- `fixed_energy_wh` (app.py lines 196-199). -/
def fixed_energy_wh (resample_min : ℤ) (panel_area module_eff fixed_pr_baseline : ℚ)
    (g : RFrame) : Option ℚ :=
  if 0 < ref_energy_wh resample_min panel_area module_eff g then
    some (ref_energy_wh resample_min panel_area module_eff g * fixed_pr_baseline)
  else none

/-- `tracker_gain_pct` (app.py lines 202-205): guarded by the Python
truthiness test `if fixed_energy_wh and fixed_energy_wh > 0`. A NaN
`fixed_energy_wh` is truthy but fails `> 0`, so both the NaN and the zero
case fall through to NaN. -/
def tracker_gain_pct (resample_min : ℤ) (panel_area module_eff fixed_pr_baseline : ℚ)
    (g : RFrame) : Option ℚ :=
  match fixed_energy_wh resample_min panel_area module_eff fixed_pr_baseline g with
  | some fe =>
    if fe ≠ 0 ∧ 0 < fe then
      some ((daily_energy_wh resample_min g - fe) / fe * 100)
    else none
  | none => none

/-- What a metric widget shows: a number or the `"N/A"` marker. -/
inductive Shown where
  | val (q : ℚ)
  | na
deriving DecidableEq

/-- The `np.isfinite` display guard used at app.py lines 224-227: a finite
value is shown as a number, a NaN as `"N/A"`. -/
def showOpt : Option ℚ → Shown
  | some q => Shown.val q
  | none => Shown.na

/-- The peak-power widget at app.py line 221: always a number, with no
`"N/A"` branch. -/
def peak_power_display (g : RFrame) : Shown := Shown.val (peak_power g)

/-! ### Ordering helpers for the sort and the bucket grid -/

/-- Row order used by the timestamp sort. -/
def rowLe (a b : Row) : Prop := a.ts ≤ b.ts

/-- Bucket order on resampled rows. -/
def bucketLt (a b : Bucket) : Prop := a.start < b.start

lemma mem_insertTs {x r : Row} : ∀ {l : List Row}, x ∈ insertTs r l ↔ x = r ∨ x ∈ l
  | [] => by simp [insertTs]
  | s :: t => by
    by_cases h : r.ts ≤ s.ts
    · simp [insertTs, h]
    · simp only [insertTs, if_neg h, List.mem_cons, mem_insertTs (l := t)]
      tauto

lemma pairwise_insertTs {r : Row} :
    ∀ {l : List Row}, List.Pairwise rowLe l → List.Pairwise rowLe (insertTs r l)
  | [], _ => List.pairwise_singleton rowLe r
  | s :: t, h => by
    rcases List.pairwise_cons.mp h with ⟨hs, ht⟩
    by_cases hle : r.ts ≤ s.ts
    · rw [insertTs, if_pos hle]
      refine List.pairwise_cons.mpr ⟨?_, h⟩
      intro x hx
      rcases List.mem_cons.mp hx with rfl | hx
      · exact hle
      · exact le_trans hle (hs x hx)
    · rw [insertTs, if_neg hle]
      refine List.pairwise_cons.mpr ⟨?_, pairwise_insertTs ht⟩
      intro x hx
      rcases mem_insertTs.mp hx with rfl | hx
      · exact le_of_not_le hle
      · exact hs x hx

lemma pairwise_sortByTs : ∀ (l : List Row), List.Pairwise rowLe (sortByTs l)
  | [] => List.Pairwise.nil
  | _ :: t => pairwise_insertTs (pairwise_sortByTs t)

lemma mem_sortByTs {x : Row} : ∀ {l : List Row}, x ∈ sortByTs l ↔ x ∈ l
  | [] => Iff.rfl
  | r :: t => by
    rw [sortByTs, mem_insertTs, mem_sortByTs (l := t), List.mem_cons]

lemma dedupAdj_cons : ∀ (t : List ℤ) (x : ℤ), ∃ t2, dedupAdj (x :: t) = x :: t2
  | [], x => ⟨[], rfl⟩
  | y :: t, x => by
    by_cases h : x = y
    · rcases dedupAdj_cons t y with ⟨t2, ht⟩
      exact ⟨t2, by rw [dedupAdj, if_pos h, ht, h]⟩
    · exact ⟨dedupAdj (y :: t), by rw [dedupAdj, if_neg h]⟩

lemma dedupAdj_chain :
    ∀ {l : List ℤ}, List.Chain' (· ≤ ·) l → List.Chain' (· < ·) (dedupAdj l)
  | [], _ => List.chain'_nil
  | [_], _ => by simp [dedupAdj]
  | a :: b :: t, h => by
    rcases List.chain'_cons.mp h with ⟨hab, hbt⟩
    by_cases heq : a = b
    · rw [dedupAdj, if_pos heq]
      exact dedupAdj_chain hbt
    · rw [dedupAdj, if_neg heq]
      rcases dedupAdj_cons t b with ⟨t2, ht2⟩
      rw [ht2]
      refine List.chain'_cons.mpr ⟨lt_of_le_of_ne hab heq, ?_⟩
      rw [← ht2]
      exact dedupAdj_chain hbt

lemma dedupAdj_subset {x : ℤ} : ∀ {l : List ℤ}, x ∈ dedupAdj l → x ∈ l
  | [], h => h
  | [_], h => by simpa [dedupAdj] using h
  | a :: b :: t, h => by
    by_cases heq : a = b
    · rw [dedupAdj, if_pos heq] at h
      exact List.mem_cons_of_mem a (dedupAdj_subset h)
    · rw [dedupAdj, if_neg heq] at h
      rcases List.mem_cons.mp h with rfl | h
      · exact List.mem_cons_self x (b :: t)
      · exact List.mem_cons_of_mem a (dedupAdj_subset h)

lemma ediv_eq_of_bounds {w q a : ℤ} (hw : 0 < w) (h1 : w * q ≤ a) (h2 : a < w * (q + 1)) :
    a / w = q := by
  have hd := Int.ediv_add_emod a w
  have hm1 := Int.emod_nonneg a (ne_of_gt hw)
  have hm2 := Int.emod_lt_of_pos a hw
  have e1 : w * (a / w + 1) = w * (a / w) + w := by ring
  have e2 : w * (q + 1) = w * q + w := by ring
  have hq1 : w * q < w * (a / w + 1) := by rw [e1]; omega
  have hq2 : q < a / w + 1 := (mul_lt_mul_left hw).mp hq1
  have hd1 : w * (a / w) < w * (q + 1) := by omega
  have hd2 : a / w < q + 1 := (mul_lt_mul_left hw).mp hd1
  omega

lemma bucketOf_le_self {o w t : ℤ} (hw : 0 < w) :
    bucketOf o w t ≤ t ∧ t < bucketOf o w t + w := by
  have hd := Int.ediv_add_emod (t - o) w
  have hm1 := Int.emod_nonneg (t - o) (ne_of_gt hw)
  have hm2 := Int.emod_lt_of_pos (t - o) hw
  unfold bucketOf
  omega

lemma bucketOf_eq_iff {o w t t0 : ℤ} (hw : 0 < w) :
    bucketOf o w t = bucketOf o w t0 ↔
      bucketOf o w t0 ≤ t ∧ t < bucketOf o w t0 + w := by
  constructor
  · intro h
    rw [← h]
    exact bucketOf_le_self hw
  · rintro ⟨h1, h2⟩
    unfold bucketOf at h1 h2 ⊢
    have e : (t - o) / w = (t0 - o) / w := by
      apply ediv_eq_of_bounds hw
      · omega
      · have : w * ((t0 - o) / w + 1) = w * ((t0 - o) / w) + w := by ring
        omega
    rw [e]

lemma bucketOf_mono {o w t1 t2 : ℤ} (hw : 0 < w) (h : t1 ≤ t2) :
    bucketOf o w t1 ≤ bucketOf o w t2 := by
  unfold bucketOf
  have := Int.ediv_le_ediv hw (sub_le_sub_right h o)
  have := mul_le_mul_of_nonneg_left this (le_of_lt hw)
  omega

/-! ### Structure of the resampled output -/

lemma mem_resampleSorted_cons {n c : List String} {w : ℤ} {r0 : Row} {rest : List Row}
    {bk : Bucket} (h : bk ∈ resampleSorted n c w (r0 :: rest)) :
    bk = aggBucket n c bk.start
        ((r0 :: rest).filter
          (fun r => bucketOf (usDay * (r0.ts / usDay)) w r.ts == bk.start)) ∧
    (∃ r ∈ r0 :: rest, bk.start = bucketOf (usDay * (r0.ts / usDay)) w r.ts) ∧
    isEmptyBucket n c bk = false := by
  rw [resampleSorted] at h
  rcases List.mem_filter.mp h with ⟨hmem, hne⟩
  rcases List.mem_map.mp hmem with ⟨s0, hs0, rfl⟩
  have hstart : (aggBucket n c s0
      ((r0 :: rest).filter
        (fun r => bucketOf (usDay * (r0.ts / usDay)) w r.ts == s0))).start = s0 := rfl
  refine ⟨by rw [hstart], ?_, ?_⟩
  · rcases List.mem_map.mp (dedupAdj_subset hs0) with ⟨r, hr, hrv⟩
    exact ⟨r, hr, by rw [hstart, ← hrv]⟩
  · rw [Bool.not_eq_true'] at hne
    exact hne

lemma resampleSorted_pairwise {n c : List String} {w : ℤ} (hw : 0 < w) :
    ∀ {rows : List Row}, List.Pairwise rowLe rows →
      List.Pairwise bucketLt (resampleSorted n c w rows)
  | [], _ => List.Pairwise.nil
  | r0 :: rest, hs => by
    rw [resampleSorted]
    apply List.Pairwise.sublist (List.filter_sublist _)
    rw [List.pairwise_map]
    have hmap : List.Pairwise (· ≤ ·)
        ((r0 :: rest).map (fun r => bucketOf (usDay * (r0.ts / usDay)) w r.ts)) := by
      rw [List.pairwise_map]
      exact hs.imp (fun hab => bucketOf_mono hw hab)
    have hlt : List.Pairwise (· < ·)
        (dedupAdj ((r0 :: rest).map (fun r => bucketOf (usDay * (r0.ts / usDay)) w r.ts))) :=
      List.chain'_iff_pairwise.mp (dedupAdj_chain hmap.chain')
    exact hlt.imp (fun hab => hab)

lemma resampleSorted_aligned {n c : List String} {w : ℤ} (hdvd : w ∣ usDay)
    {rows : List Row} {bk : Bucket} (h : bk ∈ resampleSorted n c w rows) :
    bk.start % w = 0 := by
  match rows with
  | [] => cases h
  | r0 :: rest =>
    rcases mem_resampleSorted_cons h with ⟨-, ⟨r, -, hval⟩, -⟩
    rw [hval]
    unfold bucketOf
    exact Int.emod_eq_zero_of_dvd
      (dvd_add (hdvd.mul_right (r0.ts / usDay)) (dvd_mul_right w _))

lemma resampleSorted_not_all_missing {n c : List String} {w : ℤ}
    {rows : List Row} {bk : Bucket} (h : bk ∈ resampleSorted n c w rows) :
    ∃ col, (col ∈ n ∧ (bk.num col).isSome = true) ∨
      (col ∈ c ∧ (bk.cat col).isSome = true) := by
  match rows with
  | [] => cases h
  | r0 :: rest =>
    rcases mem_resampleSorted_cons h with ⟨-, -, hne⟩
    rw [isEmptyBucket] at hne
    rcases Bool.and_eq_false_iff.mp hne with hne | hne
    · rcases List.all_eq_false.mp hne with ⟨col, hcol, hval⟩
      refine ⟨col, Or.inl ⟨hcol, ?_⟩⟩
      cases hv : bk.num col with
      | none => rw [hv] at hval; simp at hval
      | some q => rfl
    · rcases List.all_eq_false.mp hne with ⟨col, hcol, hval⟩
      refine ⟨col, Or.inr ⟨hcol, ?_⟩⟩
      cases hv : bk.cat col with
      | none => rw [hv] at hval; simp at hval
      | some q => rfl

lemma group_eq_interval {w : ℤ} (hw : 0 < w) {o b : ℤ} (rows : List Row)
    (hb : ∃ t0, b = bucketOf o w t0) :
    rows.filter (fun r => bucketOf o w r.ts == b) =
      rows.filter (fun r => decide (b ≤ r.ts) && decide (r.ts < b + w)) := by
  rcases hb with ⟨t0, rfl⟩
  apply List.filter_congr
  intro r _
  apply Bool.eq_iff_iff.mpr
  rw [beq_iff_eq, Bool.and_eq_true, decide_eq_true_eq, decide_eq_true_eq]
  exact bucketOf_eq_iff hw

/-! ### Projection helpers and the worked scenario frame -/

lemma filter_and_resample_buckets (f : Frame) (site : String) (s e m : ℤ) :
    (filter_and_resample f site s e m).buckets =
      resampleSorted f.numCols f.catCols (usMin * m) (sortByTs (filterRows f site s e)) := rfl

lemma filter_and_resample_numCols (f : Frame) (site : String) (s e m : ℤ) :
    (filter_and_resample f site s e m).numCols = f.numCols := rfl

lemma filter_and_resample_catCols (f : Frame) (site : String) (s e m : ℤ) :
    (filter_and_resample f site s e m).catCols = f.catCols := rfl

lemma aggBucket_start (n c : List String) (b : ℤ) (grp : List Row) :
    (aggBucket n c b grp).start = b := rfl

lemma aggBucket_num (n c : List String) (b : ℤ) (grp : List Row) (col : String) :
    (aggBucket n c b grp).num col =
      if col ∈ n then meanOpt (grp.filterMap (fun r => r.num col)) else none := rfl

lemma aggBucket_cat (n c : List String) (b : ℤ) (grp : List Row) (col : String) :
    (aggBucket n c b grp).cat col =
      if col ∈ c then (grp.filterMap (fun r => r.cat col)).head? else none := rfl

/-- Scenario row at `00:00` with `dc_power = 100`. -/
def exRow1 : Row :=
  { ts := 0, num := fun c => if c = "dc_power" then some 100 else none, cat := fun _ => none }

/-- Scenario row at `00:03` with `dc_power = 200`. -/
def exRow2 : Row :=
  { ts := 180000000, num := fun c => if c = "dc_power" then some 200 else none,
    cat := fun _ => none }

/-- Scenario record set `[{t=00:00, power=100}, {t=00:03, power=200}]`. -/
def exFrame : Frame := { numCols := ["dc_power"], catCols := [], rows := [exRow1, exRow2] }

/-- The single bucket the scenario resamples to. -/
def exBucket : Bucket := aggBucket ["dc_power"] [] 0 [exRow1, exRow2]

lemma exFrame_buckets :
    (filter_and_resample exFrame "" 0 (end_dt 0) 5).buckets = [exBucket] := rfl

lemma exBucket_mem : exBucket ∈ (filter_and_resample exFrame "" 0 (end_dt 0) 5).buckets := by
  rw [exFrame_buckets]
  exact List.mem_singleton.mpr rfl

lemma exBucket_power : exBucket.num "dc_power" = some 150 := by
  show meanOpt [100, 200] = some 150
  rw [meanOpt, if_neg (by simp)]
  norm_num

lemma exEnergy : daily_energy_wh 5 (filter_and_resample exFrame "" 0 (end_dt 0) 5) = 25 / 2 := by
  have hs : seriesFilled (filter_and_resample exFrame "" 0 (end_dt 0) 5) "dc_power" = [150] := by
    rw [seriesFilled, if_pos (by decide), exFrame_buckets]
    rw [List.map_singleton, exBucket_power]
    rfl
  rw [daily_energy_wh, hs, dt_hours]
  norm_num

/-- C1. Every bucket of the resampled output aggregates, for each numeric
column, the arithmetic mean of the present values whose timestamps fall in
the half-open interval `[bucket_start, bucket_start + cadence)`, and for
each non-numeric column the first-encountered present value; in the
two-record scenario with cadence 5 minutes the output is one bucket at
`00:00` with `dc_power = 150` and derived energy `150 * (5/60) = 12.5` Wh. -/
theorem resample_mean_first (f : Frame) (site : String) (s e m : ℤ) (hm : 0 < m)
    (bk : Bucket) (hbk : bk ∈ (filter_and_resample f site s e m).buckets) (c : String) :
    (bk.num c =
      if c ∈ f.numCols then
        meanOpt (((sortByTs (filterRows f site s e)).filter
            (fun r => decide (bk.start ≤ r.ts) && decide (r.ts < bk.start + usMin * m))).filterMap
          (fun r => r.num c))
      else none) ∧
    (bk.cat c =
      if c ∈ f.catCols then
        (((sortByTs (filterRows f site s e)).filter
            (fun r => decide (bk.start ≤ r.ts) && decide (r.ts < bk.start + usMin * m))).filterMap
          (fun r => r.cat c)).head?
      else none) ∧
    ((filter_and_resample exFrame "" 0 (end_dt 0) 5).buckets.map
        (fun b => (b.start, b.num "dc_power")) = [(0, some 150)] ∧
      daily_energy_wh 5 (filter_and_resample exFrame "" 0 (end_dt 0) 5) = 25 / 2) := by
  have hw : 0 < usMin * m := mul_pos (by norm_num [usMin]) hm
  rw [filter_and_resample_buckets] at hbk
  refine ?_
  have hexample :
      (filter_and_resample exFrame "" 0 (end_dt 0) 5).buckets.map
          (fun b => (b.start, b.num "dc_power")) = [(0, some 150)] ∧
        daily_energy_wh 5 (filter_and_resample exFrame "" 0 (end_dt 0) 5) = 25 / 2 := by
    constructor
    · rw [exFrame_buckets, List.map_singleton, exBucket_power]
      rfl
    · exact exEnergy
  cases hsort : sortByTs (filterRows f site s e) with
  | nil => rw [hsort] at hbk; cases hbk
  | cons r0 rest =>
    rw [hsort] at hbk
    rcases mem_resampleSorted_cons hbk with ⟨hagg, ⟨r, hr, hrv⟩, -⟩
    have hgrp := group_eq_interval (w := usMin * m) hw
      (o := usDay * (r0.ts / usDay)) (r0 :: rest) ⟨r.ts, hrv⟩ (b := bk.start)
    constructor
    · conv_lhs => rw [hagg]
      rw [aggBucket_num, hgrp]
    · constructor
      · conv_lhs => rw [hagg]
        rw [aggBucket_cat, hgrp]
      · exact hexample

/-- Witness for C1 at the spec scenario: cadence 5 is positive and the
single output bucket carries the mean and first-value characterization. -/
theorem resample_mean_first_witness :
    0 < (5 : ℤ) ∧
    ((exBucket.num "dc_power" =
      if "dc_power" ∈ exFrame.numCols then
        meanOpt (((sortByTs (filterRows exFrame "" 0 (end_dt 0))).filter
            (fun r => decide (exBucket.start ≤ r.ts) &&
              decide (r.ts < exBucket.start + usMin * 5))).filterMap
          (fun r => r.num "dc_power"))
      else none) ∧
    (exBucket.cat "dc_power" =
      if "dc_power" ∈ exFrame.catCols then
        (((sortByTs (filterRows exFrame "" 0 (end_dt 0))).filter
            (fun r => decide (exBucket.start ≤ r.ts) &&
              decide (r.ts < exBucket.start + usMin * 5))).filterMap
          (fun r => r.cat "dc_power")).head?
      else none) ∧
    ((filter_and_resample exFrame "" 0 (end_dt 0) 5).buckets.map
        (fun b => (b.start, b.num "dc_power")) = [(0, some 150)] ∧
      daily_energy_wh 5 (filter_and_resample exFrame "" 0 (end_dt 0) 5) = 25 / 2)) :=
  ⟨by norm_num,
    resample_mean_first exFrame "" 0 (end_dt 0) 5 (by norm_num) exBucket exBucket_mem "dc_power"⟩

lemma resample_invariants_aux (f : Frame) (site : String) (s e m : ℤ) (hm : 0 < m)
    (hdvd : usMin * m ∣ usDay) :
    List.Pairwise bucketLt (filter_and_resample f site s e m).buckets ∧
    (∀ bk ∈ (filter_and_resample f site s e m).buckets, bk.start % (usMin * m) = 0) ∧
    (∀ bk ∈ (filter_and_resample f site s e m).buckets,
      ∃ col, (col ∈ f.numCols ∧ (bk.num col).isSome = true) ∨
        (col ∈ f.catCols ∧ (bk.cat col).isSome = true)) := by
  have hw : 0 < usMin * m := mul_pos (by norm_num [usMin]) hm
  rw [filter_and_resample_buckets]
  refine ⟨resampleSorted_pairwise hw (pairwise_sortByTs _), ?_, ?_⟩
  · intro bk hbk
    exact resampleSorted_aligned hdvd hbk
  · intro bk hbk
    exact resampleSorted_not_all_missing hbk

/-- C2. For every input frame and every cadence the UI offers (1, 5, 10, 15,
30 or 60 minutes), the resampled buckets have strictly increasing start
times, every start is aligned to the cadence grid of the epoch (not of the
first sample), and no bucket whose every field is missing appears. -/
theorem resample_bucket_invariants (f : Frame) (site : String) (s e m : ℤ)
    (hm : m ∈ ([1, 5, 10, 15, 30, 60] : List ℤ)) :
    List.Pairwise bucketLt (filter_and_resample f site s e m).buckets ∧
    (∀ bk ∈ (filter_and_resample f site s e m).buckets, bk.start % (usMin * m) = 0) ∧
    (∀ bk ∈ (filter_and_resample f site s e m).buckets,
      ∃ col, (col ∈ f.numCols ∧ (bk.num col).isSome = true) ∨
        (col ∈ f.catCols ∧ (bk.cat col).isSome = true)) := by
  fin_cases hm
  · exact resample_invariants_aux f site s e 1 (by norm_num) (by decide)
  · exact resample_invariants_aux f site s e 5 (by norm_num) (by decide)
  · exact resample_invariants_aux f site s e 10 (by norm_num) (by decide)
  · exact resample_invariants_aux f site s e 15 (by norm_num) (by decide)
  · exact resample_invariants_aux f site s e 30 (by norm_num) (by decide)
  · exact resample_invariants_aux f site s e 60 (by norm_num) (by decide)

/-- Witness for C2 at the spec scenario frame with cadence 5. -/
theorem resample_bucket_invariants_witness :
    (5 : ℤ) ∈ ([1, 5, 10, 15, 30, 60] : List ℤ) ∧
    (List.Pairwise bucketLt (filter_and_resample exFrame "" 0 (end_dt 0) 5).buckets ∧
    (∀ bk ∈ (filter_and_resample exFrame "" 0 (end_dt 0) 5).buckets,
      bk.start % (usMin * 5) = 0) ∧
    (∀ bk ∈ (filter_and_resample exFrame "" 0 (end_dt 0) 5).buckets,
      ∃ col, (col ∈ exFrame.numCols ∧ (bk.num col).isSome = true) ∨
        (col ∈ exFrame.catCols ∧ (bk.cat col).isSome = true))) :=
  ⟨by decide, resample_bucket_invariants exFrame "" 0 (end_dt 0) 5 (by decide)⟩

/-- C3. The filter keeps exactly the rows matching the requested site (when
a site column exists and the request is non-empty; otherwise all rows pass)
whose timestamps satisfy `start_dt <= ts <= end_dt` with `end_dt` the last
microsecond of the end day — equivalently `ts < start of the next day` — and
an empty match yields an empty resampled frame as a value. -/
theorem filter_semantics (f : Frame) (site : String) (sd ed : ℤ) :
    (∀ r, r ∈ filterRows f site (start_dt sd) (end_dt ed) ↔
      r ∈ f.rows ∧
      (("site_id" ∈ f.catCols ∧ site ≠ "") → r.cat "site_id" = some site) ∧
      start_dt sd ≤ r.ts ∧ r.ts ≤ end_dt ed) ∧
    (∀ t : ℤ, t ≤ end_dt ed ↔ t < start_dt (ed + 1)) ∧
    (∀ m, (∀ r ∈ f.rows,
        ¬((("site_id" ∈ f.catCols ∧ site ≠ "") → r.cat "site_id" = some site) ∧
          start_dt sd ≤ r.ts ∧ r.ts ≤ end_dt ed)) →
      (filter_and_resample f site (start_dt sd) (end_dt ed) m).buckets = []) := by
  have hmem : ∀ r, r ∈ filterRows f site (start_dt sd) (end_dt ed) ↔
      r ∈ f.rows ∧
      (("site_id" ∈ f.catCols ∧ site ≠ "") → r.cat "site_id" = some site) ∧
      start_dt sd ≤ r.ts ∧ r.ts ≤ end_dt ed := by
    intro r
    simp only [filterRows]
    by_cases hcond : "site_id" ∈ f.catCols ∧ site ≠ ""
    · rw [if_pos hcond]
      simp only [List.mem_filter, Bool.and_eq_true, decide_eq_true_eq, beq_iff_eq]
      constructor
      · rintro ⟨⟨hr, hsite⟩, ht1, ht2⟩
        exact ⟨hr, fun _ => hsite, ht1, ht2⟩
      · rintro ⟨hr, hsite, ht1, ht2⟩
        exact ⟨⟨hr, hsite hcond⟩, ht1, ht2⟩
    · rw [if_neg hcond]
      simp only [List.mem_filter, Bool.and_eq_true, decide_eq_true_eq]
      constructor
      · rintro ⟨hr, ht1, ht2⟩
        exact ⟨hr, fun hc => absurd hc hcond, ht1, ht2⟩
      · rintro ⟨hr, -, ht1, ht2⟩
        exact ⟨hr, ht1, ht2⟩
  refine ⟨hmem, ?_, ?_⟩
  · intro t
    rw [start_dt, end_dt]
    constructor
    · intro h
      have : usDay * (ed + 1) = usDay * ed + usDay := by ring
      rw [this]
      rw [usDay] at h ⊢
      omega
    · intro h
      have : usDay * (ed + 1) = usDay * ed + usDay := by ring
      rw [this] at h
      rw [usDay] at h ⊢
      omega
  · intro m hno
    have hnil : filterRows f site (start_dt sd) (end_dt ed) = [] := by
      rw [List.eq_nil_iff_forall_not_mem]
      intro r hr
      rcases (hmem r).mp hr with ⟨hrow, hsite, ht⟩
      exact hno r hrow ⟨hsite, ht⟩
    rw [filter_and_resample_buckets, hnil]
    rfl

/-- Witness for C3 at the scenario frame with both days set to the epoch
day. -/
theorem filter_semantics_witness :
    (∀ r, r ∈ filterRows exFrame "" (start_dt 0) (end_dt 0) ↔
      r ∈ exFrame.rows ∧
      (("site_id" ∈ exFrame.catCols ∧ "" ≠ "") → r.cat "site_id" = some "") ∧
      start_dt 0 ≤ r.ts ∧ r.ts ≤ end_dt 0) ∧
    (∀ t : ℤ, t ≤ end_dt 0 ↔ t < start_dt (0 + 1)) ∧
    (∀ m, (∀ r ∈ exFrame.rows,
        ¬((("site_id" ∈ exFrame.catCols ∧ "" ≠ "") → r.cat "site_id" = some "") ∧
          start_dt 0 ≤ r.ts ∧ r.ts ≤ end_dt 0)) →
      (filter_and_resample exFrame "" (start_dt 0) (end_dt 0) m).buckets = []) :=
  filter_semantics exFrame "" 0 0

lemma pipeline_num_none {f : Frame} {site : String} {s e m : ℤ} {col : String}
    (hcol : col ∉ f.numCols) :
    ∀ bk ∈ (filter_and_resample f site s e m).buckets, bk.num col = none := by
  intro bk hbk
  rw [filter_and_resample_buckets] at hbk
  cases hsort : sortByTs (filterRows f site s e) with
  | nil => rw [hsort] at hbk; cases hbk
  | cons r0 rest =>
    rw [hsort] at hbk
    rcases mem_resampleSorted_cons hbk with ⟨hagg, -, -⟩
    conv_lhs => rw [hagg]
    rw [aggBucket_num, if_neg hcol]

/-- C4. The energy integral zero-fills missing `dc_power` per bucket
(`energy_wh` is the rectangular-rule sum of `dc_power` treated as 0 when
missing, times `cadence/60` hours), while the average panel temperature is
the mean over only the buckets with a present value, missing excluded. -/
theorem energy_and_temp_semantics (f : Frame) (site : String) (s e m : ℤ) :
    daily_energy_wh m (filter_and_resample f site s e m) =
      ((filter_and_resample f site s e m).buckets.map
        (fun bk => (bk.num "dc_power").getD 0 * ((m : ℚ) / 60))).sum ∧
    avg_panel_temp (filter_and_resample f site s e m) =
      meanOpt ((filter_and_resample f site s e m).buckets.filterMap
        (fun bk => bk.num "panel_temp_c")) := by
  constructor
  · rw [daily_energy_wh, seriesFilled]
    by_cases h : "dc_power" ∈ (filter_and_resample f site s e m).numCols
    · rw [if_pos h, List.map_map]
      rfl
    · rw [if_neg h]
      simp only [List.map_nil, List.sum_nil]
      symm
      apply List.sum_eq_zero
      intro x hx
      rcases List.mem_map.mp hx with ⟨bk, hbk, rfl⟩
      rw [pipeline_num_none (by rwa [filter_and_resample_numCols] at h) bk hbk]
      simp
  · simp only [avg_panel_temp, seriesOpt]
    by_cases h : "panel_temp_c" ∈ (filter_and_resample f site s e m).numCols
    · rw [if_pos h]
      cases hb : (filter_and_resample f site s e m).buckets with
      | nil => simp [meanOpt]
      | cons b0 bs =>
        rw [if_neg (by simp), List.filterMap_map]
        rfl
    · rw [if_neg h, if_pos rfl]
      have hnil : (filter_and_resample f site s e m).buckets.filterMap
          (fun bk => bk.num "panel_temp_c") = [] := by
        rw [List.filterMap_eq_nil_iff]
        intro bk hbk
        exact pipeline_num_none (by rwa [filter_and_resample_numCols] at h) bk hbk
      rw [hnil]
      rfl

/-- Resampled bucket used to exercise the metric guards. -/
def gExBucket : Bucket :=
  { start := 0
    num := fun c =>
      if c = "dc_power" then some 100 else if c = "irradiance_wm2" then some 600 else none
    cat := fun _ => none }

/-- Resampled frame used to exercise the metric guards. -/
def gEx : RFrame :=
  { numCols := ["dc_power", "irradiance_wm2"], catCols := [], buckets := [gExBucket] }

lemma gEx_ref : ref_energy_wh 5 1 (1 / 5) gEx = 10 := by
  simp [ref_energy_wh, seriesFilled, gEx, gExBucket, dt_hours]
  norm_num

lemma gEx_energy : daily_energy_wh 5 gEx = 25 / 3 := by
  simp [daily_energy_wh, seriesFilled, gEx, gExBucket, dt_hours]
  norm_num

/-- C5. The performance ratio is the quotient `energy / reference` exactly
when the reference energy is strictly positive, and otherwise it is the NaN
marker shown as `"N/A"` — never a raw number for that case. -/
theorem pr_tracker_guard (m : ℤ) (area eff : ℚ) (g : RFrame) :
    (0 < ref_energy_wh m area eff g →
      pr_tracker m area eff g =
        some (daily_energy_wh m g / ref_energy_wh m area eff g) ∧
      showOpt (pr_tracker m area eff g) =
        Shown.val (daily_energy_wh m g / ref_energy_wh m area eff g)) ∧
    (ref_energy_wh m area eff g ≤ 0 →
      pr_tracker m area eff g = none ∧ showOpt (pr_tracker m area eff g) = Shown.na) := by
  constructor
  · intro h
    rw [pr_tracker, if_pos h]
    exact ⟨rfl, rfl⟩
  · intro h
    rw [pr_tracker, if_neg (not_lt.mpr h)]
    exact ⟨rfl, rfl⟩

/-- Witness for C5 on a frame with strictly positive reference energy. -/
theorem pr_tracker_guard_witness :
    0 < ref_energy_wh 5 1 (1 / 5) gEx ∧
    (pr_tracker 5 1 (1 / 5) gEx =
      some (daily_energy_wh 5 gEx / ref_energy_wh 5 1 (1 / 5) gEx) ∧
    showOpt (pr_tracker 5 1 (1 / 5) gEx) =
      Shown.val (daily_energy_wh 5 gEx / ref_energy_wh 5 1 (1 / 5) gEx)) := by
  have href : 0 < ref_energy_wh 5 1 (1 / 5) gEx := by rw [gEx_ref]; norm_num
  exact ⟨href, (pr_tracker_guard 5 1 (1 / 5) gEx).1 href⟩

lemma tracker_gain_pct_of_pos (m : ℤ) (area eff baseline : ℚ) (g : RFrame)
    (href : 0 < ref_energy_wh m area eff g) :
    tracker_gain_pct m area eff baseline g =
      if ref_energy_wh m area eff g * baseline ≠ 0 ∧
          0 < ref_energy_wh m area eff g * baseline then
        some ((daily_energy_wh m g - ref_energy_wh m area eff g * baseline) /
          (ref_energy_wh m area eff g * baseline) * 100)
      else none := by
  rw [tracker_gain_pct, fixed_energy_wh, if_pos href]

/-- C6. With strictly positive reference energy and baseline, the gain the
code computes as `(energy - ref * baseline) / (ref * baseline) * 100`
equals the spec formula `(performance_ratio - baseline) / baseline * 100`
in exact arithmetic. -/
theorem tracker_gain_algebra (m : ℤ) (area eff baseline : ℚ) (g : RFrame)
    (href : 0 < ref_energy_wh m area eff g) (hb : 0 < baseline) :
    ∃ p, pr_tracker m area eff g = some p ∧
      tracker_gain_pct m area eff baseline g =
        some ((p - baseline) / baseline * 100) := by
  refine ⟨daily_energy_wh m g / ref_energy_wh m area eff g, ?_, ?_⟩
  · rw [pr_tracker, if_pos href]
  · have hrb : 0 < ref_energy_wh m area eff g * baseline := mul_pos href hb
    rw [tracker_gain_pct_of_pos m area eff baseline g href, if_pos ⟨ne_of_gt hrb, hrb⟩]
    congr 1
    field_simp

/-- Witness for C6 with reference energy 10 and baseline 4/5. -/
theorem tracker_gain_algebra_witness :
    0 < ref_energy_wh 5 1 (1 / 5) gEx ∧ 0 < (4 / 5 : ℚ) ∧
    ∃ p, pr_tracker 5 1 (1 / 5) gEx = some p ∧
      tracker_gain_pct 5 1 (1 / 5) (4 / 5) gEx =
        some ((p - 4 / 5) / (4 / 5) * 100) := by
  have href : 0 < ref_energy_wh 5 1 (1 / 5) gEx := by rw [gEx_ref]; norm_num
  exact ⟨href, by norm_num, tracker_gain_algebra 5 1 (1 / 5) (4 / 5) gEx href (by norm_num)⟩

/-- Raw frame whose only timestamp-like column is named `timestamp`. -/
def rfAlias : RawFrame :=
  { numCols := []
    catCols := ["timestamp"]
    rows := [{ tsParse := some 0, num := fun _ => none,
               cat := fun c => if c = "timestamp" then some "2024-01-01 00:00:00" else none }] }

/-- C7 counterexample: a source whose only timestamp-like column is named
`timestamp` is rejected with the schema error, not loaded. -/
theorem ts_alias_rejected_cex :
    "timestamp" ∈ rawCols rfAlias ∧
    load_all_data rfAlias = Except.error LoadError.schemaMissing :=
  ⟨by decide, rfl⟩

/-- C7 (amended). The loader recognizes no timestamp aliases: it succeeds
exactly when a column named exactly `ts_utc` is present, and fails with the
schema error whenever it is absent, even if `timestamp`, `time` or `ts` is
present. -/
theorem load_requires_ts_utc (rf : RawFrame) :
    ("ts_utc" ∈ rawCols rf → ∃ fr, load_all_data rf = Except.ok fr) ∧
    ("ts_utc" ∉ rawCols rf → load_all_data rf = Except.error LoadError.schemaMissing) := by
  constructor
  · intro h
    exact ⟨_, by rw [load_all_data, if_pos h]⟩
  · intro h
    rw [load_all_data, if_neg h]

/-- Raw frame with `ts_utc` plus voltage and current but no `dc_power`. -/
def rfVC : RawFrame :=
  { numCols := ["dc_voltage", "dc_current"]
    catCols := ["ts_utc"]
    rows :=
      [{ tsParse := some 0
         num := fun c =>
           if c = "dc_voltage" then some 10 else if c = "dc_current" then some 2 else none
         cat := fun _ => none },
       { tsParse := some 60000000
         num := fun c =>
           if c = "dc_voltage" then some 10 else if c = "dc_current" then some 2 else none
         cat := fun _ => none }] }

/-- Witness for C7 at a raw frame carrying `ts_utc`. -/
theorem load_requires_ts_utc_witness :
    "ts_utc" ∈ rawCols rfVC ∧ ∃ fr, load_all_data rfVC = Except.ok fr :=
  ⟨by decide, (load_requires_ts_utc rfVC).1 (by decide)⟩

/-- The loaded `dc_power` column, when loading succeeded. -/
def loadedPower (x : Except LoadError Frame) : Option (List (Option ℚ)) :=
  match x with
  | Except.ok fr => some (fr.rows.map (fun r => r.num "dc_power"))
  | Except.error _ => none

/-- C8 counterexample: with `dc_power` absent, `dc_voltage = [10, 10]` and
`dc_current = [2, 2]`, the loaded set still has no `dc_power` values — not
the claimed derived `[20, 20]`. -/
theorem no_power_derivation_cex :
    loadedPower (load_all_data rfVC) = some [none, none] ∧
    loadedPower (load_all_data rfVC) ≠ some [some 20, some 20] :=
  ⟨rfl, by decide⟩

/-- C8 (amended). The loader derives nothing: every loaded row takes all of
its cells unchanged from a raw row whose timestamp parsed, and the value
columns are the raw ones minus `ts_utc`; in particular an absent `dc_power`
stays absent even when voltage and current are available. -/
theorem load_preserves_fields (rf : RawFrame) (fr : Frame)
    (h : load_all_data rf = Except.ok fr) :
    fr.numCols = rf.numCols.erase "ts_utc" ∧
    fr.catCols = rf.catCols.erase "ts_utc" ∧
    ∀ r ∈ fr.rows, ∃ rr ∈ rf.rows,
      rr.tsParse = some r.ts ∧ r.num = rr.num ∧ r.cat = rr.cat := by
  rw [load_all_data] at h
  by_cases hc : "ts_utc" ∈ rawCols rf
  · rw [if_pos hc] at h
    injection h with h
    subst h
    refine ⟨rfl, rfl, ?_⟩
    intro r hr
    rcases List.mem_filterMap.mp hr with ⟨rr, hrr, hmap⟩
    cases htp : rr.tsParse with
    | none => rw [htp] at hmap; cases hmap
    | some t =>
      rw [htp] at hmap
      rw [Option.map_some'] at hmap
      have heq := Option.some.inj hmap
      subst heq
      exact ⟨rr, hrr, htp, rfl, rfl⟩
  · rw [if_neg hc] at h
    exact Except.noConfusion h

/-- The frame `rfVC` loads to. -/
def frVC : Frame :=
  { numCols := ["dc_voltage", "dc_current"]
    catCols := []
    rows := rfVC.rows.filterMap (fun rr =>
      rr.tsParse.map (fun t => { ts := t, num := rr.num, cat := rr.cat })) }

/-- Witness for C8 at the voltage/current frame. -/
theorem load_preserves_fields_witness :
    load_all_data rfVC = Except.ok frVC ∧
    (frVC.numCols = rfVC.numCols.erase "ts_utc" ∧
    frVC.catCols = rfVC.catCols.erase "ts_utc" ∧
    ∀ r ∈ frVC.rows, ∃ rr ∈ rfVC.rows,
      rr.tsParse = some r.ts ∧ r.num = rr.num ∧ r.cat = rr.cat) :=
  ⟨rfl, load_preserves_fields rfVC frVC rfl⟩

/-- Input frame with panel temperature but no `dc_power` column. -/
def fTemp : Frame :=
  { numCols := ["panel_temp_c"]
    catCols := []
    rows := [{ ts := 0, num := fun c => if c = "panel_temp_c" then some 25 else none,
               cat := fun _ => none }] }

/-- Resampled frame with no `dc_power` column. -/
def gTemp : RFrame := filter_and_resample fTemp "" 0 (end_dt 0) 5

/-- C9 counterexample: with no bucket carrying `dc_power`, the peak-power
metric is the number 0 and the widget shows `0`, not the claimed
`"N/A"`. -/
theorem peak_power_zero_cex :
    gTemp.buckets.map (fun bk => bk.num "dc_power") = [none] ∧
    peak_power gTemp = 0 ∧
    peak_power_display gTemp = Shown.val 0 ∧
    peak_power_display gTemp ≠ Shown.na :=
  ⟨rfl, rfl, rfl, by decide⟩

lemma le_foldl_max : ∀ (l : List ℚ) (a : ℚ), a ≤ l.foldl max a
  | [], a => le_refl a
  | x :: t, a => le_trans (le_max_left a x) (le_foldl_max t (max a x))

lemma mem_le_foldl_max : ∀ (l : List ℚ) (a x : ℚ), x ∈ l → x ≤ l.foldl max a
  | [], _, x, h => absurd h (List.not_mem_nil x)
  | y :: t, a, x, h => by
    rcases List.mem_cons.mp h with rfl | h
    · exact le_trans (le_max_right a x) (le_foldl_max t (max a x))
    · exact mem_le_foldl_max t (max a y) x h

lemma foldl_max_mem : ∀ (l : List ℚ) (a : ℚ), l.foldl max a = a ∨ l.foldl max a ∈ l
  | [], _ => Or.inl rfl
  | x :: t, a => by
    rcases foldl_max_mem t (max a x) with h | h
    · rcases max_choice a x with hm | hm
      · exact Or.inl (by rw [List.foldl_cons, h, hm])
      · refine Or.inr ?_
        rw [List.foldl_cons, h, hm]
        exact List.mem_cons_self x t
    · exact Or.inr (List.mem_cons_of_mem x h)

lemma maxList_mem : ∀ (l : List ℚ), l ≠ [] → maxList l ∈ l
  | [], h => absurd rfl h
  | a :: t, _ => by
    rw [maxList]
    rcases foldl_max_mem t a with h | h
    · rw [h]
      exact List.mem_cons_self a t
    · exact List.mem_cons_of_mem a h

lemma maxList_ub : ∀ (l : List ℚ) (x : ℚ), x ∈ l → x ≤ maxList l
  | [], x, h => absurd h (List.not_mem_nil x)
  | a :: t, x, h => by
    rw [maxList]
    rcases List.mem_cons.mp h with rfl | h
    · exact le_foldl_max t x
    · exact mem_le_foldl_max t a x h

/-- C9 (amended). `peak_power` is the maximum of `dc_power` over the buckets
with missing values counted as zero (it attains that list and bounds it);
when the column is absent or no bucket exists it is the number 0; and the
widget always shows a number, never `"N/A"`. -/
theorem peak_power_semantics (g : RFrame) :
    peak_power_display g = Shown.val (peak_power g) ∧
    ("dc_power" ∈ g.numCols ∧ g.buckets ≠ [] →
      peak_power g ∈ g.buckets.map (fun bk => (bk.num "dc_power").getD 0) ∧
      ∀ v ∈ g.buckets.map (fun bk => (bk.num "dc_power").getD 0), v ≤ peak_power g) ∧
    ("dc_power" ∉ g.numCols ∨ g.buckets = [] → peak_power g = 0) := by
  refine ⟨rfl, ?_, ?_⟩
  · rintro ⟨hcol, hne⟩
    have hser : seriesFilled g "dc_power" =
        g.buckets.map (fun bk => (bk.num "dc_power").getD 0) := by
      rw [seriesFilled, if_pos hcol]
    have hsne : seriesFilled g "dc_power" ≠ [] := by
      rw [hser]
      intro hmap
      exact hne (List.map_eq_nil_iff.mp hmap)
    have hpk : peak_power g = maxList (seriesFilled g "dc_power") := by
      simp only [peak_power]
      rw [if_neg hsne]
    constructor
    · rw [hpk, ← hser]
      exact maxList_mem _ hsne
    · intro v hv
      rw [hpk]
      apply maxList_ub
      rw [hser]
      exact hv
  · intro h
    simp only [peak_power]
    rcases h with h | h
    · rw [seriesFilled, if_neg h]
      rfl
    · by_cases hcol : "dc_power" ∈ g.numCols
      · rw [seriesFilled, if_pos hcol, h]
        rfl
      · rw [seriesFilled, if_neg hcol]
        rfl

/-- Witness for C9 on a frame whose single bucket has `dc_power = 100`. -/
theorem peak_power_semantics_witness :
    ("dc_power" ∈ gEx.numCols ∧ gEx.buckets ≠ []) ∧
    (peak_power gEx ∈ gEx.buckets.map (fun bk => (bk.num "dc_power").getD 0) ∧
      ∀ v ∈ gEx.buckets.map (fun bk => (bk.num "dc_power").getD 0), v ≤ peak_power gEx) := by
  have h : "dc_power" ∈ gEx.numCols ∧ gEx.buckets ≠ [] := ⟨by decide, by simp [gEx]⟩
  exact ⟨h, (peak_power_semantics gEx).2.1 h⟩

lemma endsWithL_iff (s suf : List Char) :
    endsWithL s suf = true ↔ ∃ pre, s = pre ++ suf := by
  rw [endsWithL, beq_iff_eq]
  constructor
  · intro h
    refine ⟨s.take (s.length - suf.length), ?_⟩
    conv_lhs => rw [← List.take_append_drop (s.length - suf.length) s]
    rw [h]
  · rintro ⟨pre, rfl⟩
    have hl : (pre ++ suf).length - suf.length = pre.length := by
      rw [List.length_append]
      omega
    rw [hl, List.drop_left]

/-- C10. The loader picks its backend purely by filename suffix: it queries
the SQLite `telemetry` table exactly when the stripped, lowercased
descriptor ends with `.db`, `.sqlite` or `.sqlite3`; every other descriptor
— including an actual SQLite database file without such a suffix — is
parsed as delimited text. -/
theorem source_kind_suffix :
    (∀ s : List Char, source_kind s = SourceKind.sqlite ↔
      (∃ pre, pyLower (pyStrip s) = pre ++ String.toList ".db") ∨
      (∃ pre, pyLower (pyStrip s) = pre ++ String.toList ".sqlite") ∨
      (∃ pre, pyLower (pyStrip s) = pre ++ String.toList ".sqlite3")) ∧
    source_kind (String.toList " Telemetry.DB ") = SourceKind.sqlite ∧
    source_kind (String.toList "data.csv") = SourceKind.csv ∧
    source_kind (String.toList "sqlite_database_no_suffix") = SourceKind.csv := by
  refine ⟨?_, by decide, by decide, by decide⟩
  intro s
  have hk : source_kind s = SourceKind.sqlite ↔ source_is_db s = true := by
    rw [source_kind]
    by_cases hdb : source_is_db s
    · rw [if_pos hdb]
      exact ⟨fun _ => hdb, fun _ => rfl⟩
    · rw [if_neg hdb]
      exact ⟨fun h => SourceKind.noConfusion h, fun h => absurd h hdb⟩
  rw [hk]
  simp only [source_is_db, Bool.or_eq_true, endsWithL_iff]
  tauto
